import Mathlib

/-!
# Shallow embedding of the `cookie-jar` crate

This file embeds the cookie engine of the repository (cookie-string and
cookie-date parsing, the attribute-resolution builder, and the domain/path
trie jar) as executable Lean definitions, translated function by function
from the Rust source, and proves properties of the embedded code.

Conventions used throughout:
* byte strings (`&[u8]`) are `List Nat`, with each element a byte value;
* Rust `Option`/`Result` values are `Option`/`Except`;
* a Rust panic (out-of-bounds index, `unwrap` of `None`) is modelled by an
  outer `Option` layer: `none` means the code faults, `some r` means the
  code returns the value `r`;
* Rust `HashMap` is modelled as an association list in insertion order;
  the operations used by the source (entry/or_insert_with, insert, get)
  are key-based, so the representation is observationally faithful up to
  iteration order, and all match-set statements below are phrased so that
  they do not depend on that order;
* external collaborators (the `url` and `time` crates, `std` UTF-8
  validation) are modelled separately and are marked as such.
-/

namespace CookieJar

/-- Association-list lookup, modelling `HashMap::get`. -/
def alGet {κ α : Type} [DecidableEq κ] (l : List (κ × α)) (k : κ) : Option α :=
  match l with
  | [] => none
  | (k', v) :: rest => if k' = k then some v else alGet rest k

/-- Association-list insert-or-replace, modelling `HashMap::insert`. -/
def alInsert {κ α : Type} [DecidableEq κ] (l : List (κ × α)) (k : κ) (v : α) :
    List (κ × α) :=
  match l with
  | [] => [(k, v)]
  | (k', v') :: rest =>
    if k' = k then (k, v) :: rest else (k', v') :: alInsert rest k v

/-- Association-list update-or-insert, modelling
`HashMap::entry(k).or_insert_with(default)` followed by an in-place update of
the entry. -/
def alUpdate {κ α : Type} [DecidableEq κ] (l : List (κ × α)) (k : κ)
    (dflt : α) (f : α → α) : List (κ × α) :=
  match l with
  | [] => [(k, f dflt)]
  | (k', v') :: rest =>
    if k' = k then (k, f v') :: rest else (k', v') :: alUpdate rest k dflt f

/-- Split a character list at every occurrence of `c`, keeping empty
segments, exactly as Rust's `str::split(c)`: `"path/to/"` splits into
`["path", "to", ""]` and `""` splits into `[""]`. -/
def splitOnChar (c : Char) : List Char → List (List Char)
  | [] => [[]]
  | x :: xs =>
    if x = c then [] :: splitOnChar c xs
    else
      match splitOnChar c xs with
      | [] => [[x]]
      | seg :: rest => (x :: seg) :: rest

/-- Strip every leading occurrence of `c`, as Rust's
`str::trim_left_matches(c)` (all leading matches are removed). -/
def trimLeftChar (c : Char) (l : List Char) : List Char :=
  l.dropWhile (· = c)

/-- Strip every leading and trailing occurrence of `c`, as Rust's
`str::trim_matches(c)`. -/
def trimChar (c : Char) (l : List Char) : List Char :=
  (((l.dropWhile (· = c)).reverse.dropWhile (· = c))).reverse

/-! ## Data model (src/cookie/mod.rs, src/cookie/parse/mod.rs, src/error.rs) -/

/-- The broken-down time structure of the external `time` crate (`time::Tm`),
as the date parser fills it: `tm_year` is the year since 1900 and `tm_mon` is
zero-based. -/
structure Tm where
  tm_sec : Int
  tm_min : Int
  tm_hour : Int
  tm_mday : Int
  tm_mon : Int
  tm_year : Int
  tm_wday : Int
  tm_yday : Int
  tm_isdst : Int
  tm_utcoff : Int
  tm_nsec : Int
deriving DecidableEq

instance : Inhabited Tm := ⟨⟨0, 0, 0, 0, 0, 0, 0, 0, 0, 0, 0⟩⟩

/-- Parse-level errors (`error::parser::ErrorKind`), plus the foreign error
variants the parser can surface (`Utf8`, `ParseInt`). -/
inductive PErr where
  | notEnoughBytes
  | missingQuote
  | missingDelimiter
  | incompleteDate
  | invalidDate
  | utf8
  | parseInt
deriving DecidableEq

/-- Semantic-level errors (`error::ErrorKind`), with parse errors linked in
through the `CookieParse` variant as in the `error_chain!` declaration. -/
inductive Err where
  | invalidDomain
  | invalidOrigin
  | missingDomain
  | missingPath
  | hostInvalid
  | insecureOrigin
  | nonHttpOrigin
  | cookieParse (e : PErr)
  | urlParse
deriving DecidableEq

/-- A decoded `name=value` pair (`parse::CookiePair`, re-exported by
`cookie` as `Pair`).  The Rust struct stores the matched slice as a `String`;
we keep its byte representation.  `value_location` is stored exactly as the
source computes it. -/
structure CookiePair where
  pair : List Nat
  name_len : Nat
  value_location : Nat × Nat
deriving DecidableEq

instance : Inhabited CookiePair := ⟨⟨[], 0, (0, 0)⟩⟩

/-- `CookiePair::name`: the first `name_len` bytes of the stored pair text
(`&self.pair.as_str()[0..self.name_len]`). -/
def CookiePair.name (p : CookiePair) : List Nat :=
  p.pair.take p.name_len

/-- `CookiePair::value`: `&self.pair.as_str()[start..length]` for
`(start, length) = self.value_location`.  Note the source uses the second
component directly as the *end* of the range; a range whose start exceeds
its end, or whose end exceeds the string length, panics (`none`). -/
def CookiePair.value (p : CookiePair) : Option (List Nat) :=
  let (start, len) := p.value_location
  if start ≤ len ∧ len ≤ p.pair.length then
    some ((p.pair.take len).drop start)
  else none

/-- `cookie::Expires` — the expiry time of a cookie. -/
inductive Expires where
  | atUtc (t : Tm)
  | never
deriving DecidableEq

/-- `cookie::Attributes` — the payload of the cookie including security
requirements. -/
structure Attributes where
  pair : CookiePair
  expiry : Expires
  host_only : Bool
  secure : Bool
  http_only : Bool
deriving DecidableEq

/-- `Default for Attributes`. -/
def Attributes.default : Attributes :=
  { pair := Inhabited.default
    expiry := Expires.never
    host_only := true
    secure := false
    http_only := false }

/-- The host of a URL, from the external `url` crate (`url::Host`).  The
numeric payload of an IP address is immaterial to the embedded code, which
only compares addresses for equality, so both address families carry a
single `Nat`. -/
inductive Host where
  | domain (d : String)
  | ipv4 (a : Nat)
  | ipv6 (a : Nat)
deriving DecidableEq

/-- `std::net::IpAddr`. -/
inductive IpAddr where
  | v4 (a : Nat)
  | v6 (a : Nat)
deriving DecidableEq

/-- The parts of a parsed URL that the embedded code reads, per the spec's
external origin resolver: `url.host()`, `url.path()` and `url.scheme()` of
the external `url` crate. -/
structure Url where
  host : Option Host
  path : String
  scheme : String

/-- `cookie::Cookie` — the jar-ready form of a cookie. -/
structure Cookie where
  host : Host
  path : String
  attributes : Attributes
deriving DecidableEq

/-! ## `url_dir_path` (src/cookie/mod.rs lines 545-553)

```rust
let path = url.path();
if path.ends_with('/') { path } else {
    let end = path.rfind('/').unwrap();
    &path[0..=end]
}
```

`rfind('/').unwrap()` panics when the path contains no `/`; the panic is the
`none` result.  Slicing `path[0..=end]` keeps everything up to and including
the last `/`. -/

/-- Everything up to and including the last `/` of `cs` (which must contain
one): `path[0..=end]` for `end = path.rfind('/')`. -/
def takeToLastSlash (cs : List Char) : List Char :=
  (cs.reverse.dropWhile (· ≠ '/')).reverse

/-- `cookie::url_dir_path`, with `none` for the `unwrap` panic. -/
def url_dir_path (url : Url) : Option String :=
  let cs := url.path.toList
  if cs.getLast? = some '/' then some url.path
  else if cs.contains '/' then some ⟨takeToLastSlash cs⟩
  else none

/-! ## The jar (src/jar.rs)

`Jar` stores a `Domain` trie plus a sibling `HashMap<IpAddr, Path>`.  The
`clock` field is omitted: neither `add_cookie` nor `url_matches` consults
it.  `HostMatch`, `Domain` and `Path` are translated directly; the
`Vec::pop` traversal of `Domain` consumes the reversed segment list head
first, so the embedded functions take the segments already in pop order and
the `Jar`-level wrappers reverse the written order exactly once. -/

/-- `jar::HostMatch`. -/
inductive HostMatch where
  | exact
  | suffix
deriving DecidableEq

/-- `jar::Path` — the hierarchy of paths.  `cookies` is keyed by cookie
name, `children` by path segment. -/
inductive PathT where
  | node (cookies : List (List Nat × Attributes))
         (children : List (List Char × PathT))

/-- `Default for Path`. -/
def PathT.default : PathT := .node [] []

def PathT.cookies : PathT → List (List Nat × Attributes)
  | .node cs _ => cs

def PathT.children : PathT → List (List Char × PathT)
  | .node _ ch => ch

/-- `jar::Domain` — the hierarchy of domains. -/
inductive DomainT where
  | node (path : PathT) (children : List (List Char × DomainT))

/-- `Default for Domain`. -/
def DomainT.default : DomainT := .node PathT.default []

def DomainT.path : DomainT → PathT
  | .node p _ => p

def DomainT.children : DomainT → List (List Char × DomainT)
  | .node _ ch => ch

/-- `Path::add_cookie`: descend the path trie along `segments`, creating
nodes as needed, and store the attributes keyed by the cookie's name at the
terminal node (`HashMap::insert`, replacing any prior value). -/
def PathT.add_cookie (t : PathT) (segments : List (List Char))
    (attributes : Attributes) : PathT :=
  match segments with
  | [] =>
    .node (alInsert t.cookies attributes.pair.name attributes) t.children
  | child :: rest =>
    .node t.cookies
          (alUpdate t.children child PathT.default
            (fun sub => sub.add_cookie rest attributes))

/-- `Path::match_url`: contribute this node's cookies (filtered by the
host-match kind: `Exact` passes everything, `Suffix` only cookies with
`host_only = false`), then continue into the child named by the next
segment, if any. -/
def PathT.match_url (t : PathT) (segments : List (List Char))
    (host : HostMatch) : List CookiePair :=
  let iter :=
    (t.cookies.filter fun kv =>
        match host with
        | .exact => true
        | .suffix => !kv.2.host_only).map
      (fun kv => kv.2.pair)
  match segments with
  | [] => iter
  | child :: rest =>
    match alGet t.children child with
    | some sub => iter ++ sub.match_url rest host
    | none => iter

/-- `Domain::add_cookie`.  The Rust function pops segments off the end of a
`Vec`; `rev_segments` is that vector reversed, so popping is taking the
head. -/
def DomainT.add_cookie (t : DomainT) (rev_segments : List (List Char))
    (path : List (List Char)) (attributes : Attributes) : DomainT :=
  match rev_segments with
  | child :: rest =>
    .node t.path
          (alUpdate t.children child DomainT.default
            (fun sub => sub.add_cookie rest path attributes))
  | [] =>
    .node (t.path.add_cookie path attributes) t.children

/-- `Domain::match_url`, with `rev_segments` again in pop order: every
strictly-ancestor node contributes its path trie with `HostMatch::Suffix`;
the node where the segments run out contributes with `HostMatch::Exact`. -/
def DomainT.match_url (t : DomainT) (rev_segments : List (List Char))
    (path : List (List Char)) : List CookiePair :=
  match rev_segments with
  | child :: rest =>
    let iter := t.path.match_url path .suffix
    match alGet t.children child with
    | some sub => iter ++ sub.match_url rest path
    | none => iter
  | [] => t.path.match_url path .exact

/-- `jar::Jar`.  The `clock` capability is omitted (it is never consulted by
`add_cookie` or `url_matches`); `hosts` is the IP-literal side map. -/
structure Jar where
  domain : DomainT
  hosts : List (IpAddr × PathT)

/-- `Default for Jar` / `Jar::new`. -/
def Jar.empty : Jar := ⟨DomainT.default, []⟩

/-- Domain-name segments as the jar computes them:
`domain.trim_matches('.').split('.')`. -/
def domainSegs (d : String) : List (List Char) :=
  splitOnChar '.' (trimChar '.' d.toList)

/-- Path segments as the jar computes them:
`path.trim_left_matches('/').split('/')`. -/
def pathSegs (p : String) : List (List Char) :=
  splitOnChar '/' (trimLeftChar '/' p.toList)

/-- `HashMap::entry(host).or_insert_with(Path::default)` keyed by `IpAddr`
(`Jar::update_host`). -/
def Jar.update_host (jar : Jar) (host : IpAddr) (segments : List (List Char))
    (attributes : Attributes) : Jar :=
  let rec go : List (IpAddr × PathT) → List (IpAddr × PathT)
    | [] => [(host, PathT.default.add_cookie segments attributes)]
    | (k, v) :: rest =>
      if k = host then (k, v.add_cookie segments attributes) :: rest
      else (k, v) :: go rest
  ⟨jar.domain, go jar.hosts⟩

/-- `Jar::add_cookie`. -/
def Jar.add_cookie (jar : Jar) (cookie : Cookie) : Jar :=
  let path_segments := pathSegs cookie.path
  match cookie.host with
  | .domain domain =>
    ⟨jar.domain.add_cookie (domainSegs domain).reverse path_segments
       cookie.attributes,
     jar.hosts⟩
  | .ipv4 addr => jar.update_host (.v4 addr) path_segments cookie.attributes
  | .ipv6 addr => jar.update_host (.v6 addr) path_segments cookie.attributes

/-- `Jar::host_matches`. -/
def Jar.host_matches (jar : Jar) (host : IpAddr)
    (segments : List (List Char)) : List CookiePair :=
  let rec find : List (IpAddr × PathT) → Option PathT
    | [] => none
    | (k, v) :: rest => if k = host then some v else find rest
  match find jar.hosts with
  | some t => t.match_url segments .exact
  | none => []

/-- `Jar::url_matches`.  The Rust function evaluates
`url_dir_path(url)` before inspecting the host, so a panic there (`none`)
precedes everything else. -/
def Jar.url_matches (jar : Jar) (url : Url) : Option (List CookiePair) :=
  match url_dir_path url with
  | none => none
  | some dir =>
    let path_segments := pathSegs dir
    some (match url.host with
      | some (.domain domain) =>
        jar.domain.match_url (domainSegs domain).reverse path_segments
      | some (.ipv4 addr) => jar.host_matches (.v4 addr) path_segments
      | some (.ipv6 addr) => jar.host_matches (.v6 addr) path_segments
      | none => [])

/-! ## Byte classifiers (src/cookie/parse/mod.rs) -/

/-- RFC5234 CTL byte (`parse::is_ctl`). -/
def is_ctl (byte : Nat) : Bool :=
  byte ≤ 0x1F || byte == 0x7F

/-- RFC2616 separator byte (`parse::is_separator`). -/
def is_separator (byte : Nat) : Bool :=
  byte == 0x28 || byte == 0x29 || byte == 0x3C || byte == 0x3E || byte == 0x40 ||
  byte == 0x2C || byte == 0x3B || byte == 0x3A || byte == 0x5C || byte == 0x22 ||
  byte == 0x2F || byte == 0x5B || byte == 0x5D || byte == 0x3F || byte == 0x3D ||
  byte == 0x7B || byte == 0x7D || byte == 0x20 || byte == 0x09

/-- RFC2616 token byte (`parse::is_token_octet`). -/
def is_token_octet (byte : Nat) : Bool :=
  !(is_ctl byte || is_separator byte)

/-- Cookie fragment byte (`parse::is_fragment_octet`). -/
def is_fragment_octet (byte : Nat) : Bool :=
  !(is_ctl byte || byte == 0x3B)

/-- RFC6265 cookie-octet (`parse::is_cookie_octet`). -/
def is_cookie_octet (byte : Nat) : Bool :=
  byte == 0x21 || (byte ≥ 0x23 && byte ≤ 0x2B) || (byte ≥ 0x2D && byte ≤ 0x3A) ||
  (byte ≥ 0x3C && byte ≤ 0x5B) || (byte ≥ 0x5D && byte ≤ 0x7E)

/-- `parse::collect_matching`: the maximal prefix of `source` whose bytes
satisfy `test`. -/
def collect_matching (source : List Nat) (test : Nat → Bool) : List Nat :=
  source.takeWhile test

/-- `parse::non_zero_length`. -/
def non_zero_length (s : List Nat) : Except PErr (List Nat) :=
  if s.length > 0 then .ok s else .error .notEnoughBytes

/-! ## The cookie-date parser (src/cookie/parse/date.rs) -/

/-- Date-grammar delimiter byte (`date::is_delimiter`). -/
def is_delimiter (byte : Nat) : Bool :=
  byte == 0x09 || (byte ≥ 0x20 && byte ≤ 0x2F) || (byte ≥ 0x3B && byte ≤ 0x40) ||
  (byte ≥ 0x5B && byte ≤ 0x60) || (byte ≥ 0x7B && byte ≤ 0x7E)

/-- ASCII digit test (`u8::is_ascii_digit`). -/
def isAsciiDigit (byte : Nat) : Bool :=
  byte ≥ 0x30 && byte ≤ 0x39

/-- ASCII alphanumeric test (`u8::is_ascii_alphanumeric`). -/
def isAsciiAlphanumeric (byte : Nat) : Bool :=
  isAsciiDigit byte || (byte ≥ 0x41 && byte ≤ 0x5A) || (byte ≥ 0x61 && byte ≤ 0x7A)

/-- `u8::to_ascii_lowercase`. -/
def toAsciiLowercase (byte : Nat) : Nat :=
  if byte ≥ 0x41 && byte ≤ 0x5A then byte + 0x20 else byte

/-- Date-grammar non-delimiter byte (`date::is_non_delimiter`). -/
def is_non_delimiter (byte : Nat) : Bool :=
  byte ≤ 0x08 || (byte ≥ 0x0A && byte ≤ 0x1F) || isAsciiAlphanumeric byte ||
  byte == 0x3A || byte ≥ 0x7F

/-- `date::next_date_token`. -/
def next_date_token (source : List Nat) : Except PErr (List Nat) :=
  non_zero_length (collect_matching source is_non_delimiter)

/-- `date::next_date_delimiter`. -/
def next_date_delimiter (source : List Nat) : Except PErr (List Nat) :=
  non_zero_length (collect_matching source is_delimiter)

/-- `date::decode_digits`: up to `max` (at least `min`) leading digits of
`token`, folded into a value, returning the unconsumed remainder.  The fold
over `token[..max_len]` is translated verbatim, including the `leading`
flag. -/
def decode_digits (token : List Nat) (min max : Nat) :
    Option (Int × List Nat) :=
  if token.length < min then none
  else if !isAsciiDigit (token.headD 0) then none
  else
    let max_len := Nat.min max token.length
    let folded := (token.take max_len).foldl
      (fun (acc : Int × Nat × Bool) next =>
        let (value, count, leading) := acc
        if leading && isAsciiDigit next then
          (value * 10 + ((next : Int) - 48), count + 1, true)
        else (value, count, false))
      (0, 0, true)
    some (folded.1, token.drop folded.2.1)

/-- `date::invalid_if_trailing_digit`.  The source checks
`remaining.len() > 0 && remaining[1].is_ascii_digit()` — note the index `1`,
not `0` — so when exactly one byte remains the index is out of bounds and
the code panics (outer `none`).  `some none` is an ordinary rejection,
`some (some v)` acceptance. -/
def invalid_if_trailing_digit {α : Type} (value : α) (remaining : List Nat) :
    Option (Option α) :=
  if remaining.length > 0 then
    match remaining.get? 1 with
    | none => none
    | some b => if isAsciiDigit b then some none else some (some value)
  else some (some value)

/-- `date::decode_time_field` (`decode_digits(source, 1, 2)`). -/
def decode_time_field (source : List Nat) : Option (Int × List Nat) :=
  decode_digits source 1 2

/-- `date::cookie_time_continues`:
`decoded.1.len() >= 2 && decoded.1[0] == b':'`. -/
def cookie_time_continues {α : Type} (decoded : α × List Nat) :
    Option (α × List Nat) :=
  if decoded.2.length ≥ 2 && decoded.2.headD 0 == 0x3A then some decoded
  else none

/-- `date::decode_next_time_field`: decode a time field from
`&remaining[1..]` (skipping the `:`). -/
def decode_next_time_field {α : Type} (decoded : α × List Nat) :
    Option (α × (Int × List Nat)) :=
  (decode_time_field (decoded.2.drop 1)).map (fun v => (decoded.1, v))

/-- `date::decode_time`: `HH:MM:SS`, 1-2 digits per field, with the
trailing-digit ambiguity guard at the end (which can panic, outer
`none`). -/
def decode_time (token : List Nat) : Option (Option (Int × Int × Int)) :=
  let chain : Option ((Int × Int × Int) × List Nat) :=
    ((((decode_time_field token).bind cookie_time_continues).bind
        decode_next_time_field).map
      (fun hm => ((hm.1, hm.2.1), hm.2.2))
      |>.bind cookie_time_continues).bind decode_next_time_field
      |>.map (fun hms => ((hms.1.1, hms.1.2, hms.2.1), hms.2.2))
  match chain with
  | none => some none
  | some (v, remaining) => invalid_if_trailing_digit v remaining

/-- `date::decode_day` (can panic through the trailing-digit guard). -/
def decode_day (token : List Nat) : Option (Option Int) :=
  match decode_time_field token with
  | none => some none
  | some (v, remaining) => invalid_if_trailing_digit v remaining

/-- `date::decode_month`: case-insensitive 3-letter prefix match against the
twelve abbreviations, yielding the zero-based month index. -/
def decode_month (token : List Nat) : Option Int :=
  let months : List (List Nat) :=
    [[0x6A, 0x61, 0x6E], [0x66, 0x65, 0x62], [0x6D, 0x61, 0x72],
     [0x61, 0x70, 0x72], [0x6D, 0x61, 0x79], [0x6A, 0x75, 0x6E],
     [0x6A, 0x75, 0x6C], [0x61, 0x75, 0x67], [0x73, 0x65, 0x70],
     [0x6F, 0x63, 0x74], [0x6E, 0x6F, 0x76], [0x64, 0x65, 0x63]]
  if token.length < 3 then none
  else
    let rec go (numeric : Int) : List (List Nat) → Option Int
      | [] => none
      | month :: rest =>
        if toAsciiLowercase (token.headD 0) == month.headD 0 &&
           toAsciiLowercase ((token.drop 1).headD 0) == (month.drop 1).headD 0 &&
           toAsciiLowercase ((token.drop 2).headD 0) == (month.drop 2).headD 0
        then some numeric
        else go (numeric + 1) rest
    go 0 months

/-- `date::decode_year`: 2-4 digits with the trailing-digit guard (which can
panic), then the 2-digit uplift, then conversion to years since 1900. -/
def decode_year (token : List Nat) : Option (Option Int) :=
  let decoded : Option (Option Int) :=
    match decode_digits token 2 4 with
    | none => some none
    | some (v, remaining) => invalid_if_trailing_digit v remaining
  match decoded with
  | none => none
  | some none => some none
  | some (some year) =>
    let year :=
      if year ≥ 0 && year ≤ 69 then year + 2000
      else if year ≥ 70 && year ≤ 99 then year + 1900
      else year
    some (some (year - 1900))

/-- `date::is_leap_year`.  `Int.tmod` is Rust's truncated `%`. -/
def is_leap_year (year : Int) : Bool :=
  year.tmod 400 == 0 || (year.tmod 100 != 0 && year.tmod 4 == 0)

/-- Days per month (`date::verify_date`'s `month_days` table). -/
def month_days : List Int :=
  [31, 28, 31, 30, 31, 30, 31, 31, 30, 31, 30, 31]

/-- `date::verify_date`: bounds-check the month, then the day against the
month length, admitting 29 in February (month index 1) when
`is_leap_year(year)` holds — `year` being, as stored, the year since
1900. -/
def verify_date (day month year : Int) : Except PErr Unit :=
  if !(day ≥ 0 && month ≥ 0 && month < 12) then .error .invalidDate
  else if !((is_leap_year year && month == 1 && day ≤ 29) ||
            day ≤ (month_days.getD month.toNat 0)) then .error .invalidDate
  else .ok ()

/-- `date::Date` — the four disambiguation slots. -/
structure DateSlots where
  time : Option (Int × Int × Int)
  day : Option Int
  month : Option Int
  year : Option Int
deriving DecidableEq

/-- `Date::unset`. -/
def DateSlots.unset : DateSlots := ⟨none, none, none, none⟩

/-- Last link of the `try_replace` chain in `Date::gather`: the year
slot. -/
def DateSlots.feedYear (d : DateSlots) (token : List Nat) : Option DateSlots :=
  match d.year with
  | none =>
    match decode_year token with
    | none => none
    | some (some v) => some { d with year := some v }
    | some none => some d
  | some _ => some d

/-- Third link of the `try_replace` chain: the month slot. -/
def DateSlots.feedMonth (d : DateSlots) (token : List Nat) : Option DateSlots :=
  match d.month with
  | none =>
    match decode_month token with
    | some v => some { d with month := some v }
    | none => d.feedYear token
  | some _ => d.feedYear token

/-- Second link of the `try_replace` chain: the day slot. -/
def DateSlots.feedDay (d : DateSlots) (token : List Nat) : Option DateSlots :=
  match d.day with
  | none =>
    match decode_day token with
    | none => none
    | some (some v) => some { d with day := some v }
    | some none => d.feedMonth token
  | some _ => d.feedMonth token

/-- One `gather` step: `Date::try_replace` chained over the four slots in
the fixed order time → day → month → year.  Each decoder runs only when its
slot is still empty; a decoder panic propagates (outer `none`). -/
def DateSlots.feed (d : DateSlots) (token : List Nat) : Option DateSlots :=
  match d.time with
  | none =>
    match decode_time token with
    | none => none
    | some (some v) => some { d with time := some v }
    | some none => d.feedDay token
  | some _ => d.feedDay token

/-- `Date::gather`, fused with `DateIter`: repeatedly strip the delimiter
run (except before the first token), take the next token, and feed it to the
slots.  A missing token or delimiter surfaces `NotEnoughBytes`; a decoder
panic propagates as the outer `none`.  `fuel` only bounds the recursion;
every iteration consumes at least one byte of `remaining`, so any
`fuel > remaining.length` is exact (the fuel-exhaustion branch is
unreachable for the initial fuel chosen in `cookie_date_parse`). -/
def gatherGo (fuel : Nat) (first : Bool) (remaining : List Nat)
    (d : DateSlots) : Option (Except PErr DateSlots) :=
  match fuel with
  | 0 => some (.error .notEnoughBytes)
  | fuel + 1 =>
    if remaining.length = 0 then some (.ok d)
    else
      let afterDelim : Except PErr (List Nat) :=
        if first then .ok remaining
        else
          match next_date_delimiter remaining with
          | .error e => .error e
          | .ok delim => .ok (remaining.drop delim.length)
      match afterDelim with
      | .error e => some (.error e)
      | .ok rem2 =>
        match next_date_token rem2 with
        | .error e => some (.error e)
        | .ok token =>
          match d.feed token with
          | none => none
          | some d' => gatherGo fuel false (rem2.drop token.length) d'

/-- `Date::into_time`: validate the time fields — the source checks
`second >= 0 && second < 60 && minute >= 0 && second < 60 && hour >= 0 &&
hour < 24`, with `second < 60` appearing twice and `minute` never bounded
above — then `verify_date`, then build the `Tm`. -/
def DateSlots.into_time (d : DateSlots) : Except PErr Tm :=
  match d.time, d.day, d.month, d.year with
  | some (hour, minute, second), some day, some month, some year =>
    if !(second ≥ 0 && second < 60 && minute ≥ 0 && second < 60 &&
         hour ≥ 0 && hour < 24) then .error .invalidDate
    else
      match verify_date day month year with
      | .error e => .error e
      | .ok _ =>
        .ok { tm_sec := second, tm_min := minute, tm_hour := hour,
              tm_mday := day, tm_mon := month, tm_year := year,
              tm_wday := 0, tm_yday := 0, tm_isdst := 0, tm_utcoff := 0,
              tm_nsec := 0 }
  | _, _, _, _ => .error .incompleteDate

/-- `date::parse`: gather the slots from the tokens, then convert.  The
outer `none` is a panic inside the trailing-digit guard. -/
def cookie_date_parse (source : List Nat) : Option (Except PErr Tm) :=
  match gatherGo (source.length + 1) true source DateSlots.unset with
  | none => none
  | some (.error e) => some (.error e)
  | some (.ok d) => some d.into_time

/-- The bytes of an ASCII string, as `str::as_bytes` produces them (for the
ASCII-only inputs used below, UTF-8 bytes and code points coincide). -/
def strBytes (s : String) : List Nat :=
  s.toList.map Char.toNat

/-! ## UTF-8 decoding (external `std::str::from_utf8`)

The source validates byte slices as UTF-8 before storing them as `String`s.
This is the standard UTF-8 decoding automaton: 1-4 byte sequences, with
continuation bytes in `0x80..=0xBF`, overlong encodings, surrogates and
values above `0x10FFFF` rejected. -/

/-- A UTF-8 continuation byte. -/
def isUtf8Cont (b : Nat) : Bool :=
  b ≥ 0x80 && b ≤ 0xBF

/-- Decode a UTF-8 byte sequence to its scalar values;
`none` on invalid input. -/
def utf8Decode : List Nat → Option (List Nat)
  | [] => some []
  | b :: rest =>
    if b ≤ 0x7F then (utf8Decode rest).map (b :: ·)
    else if b ≥ 0xC2 && b ≤ 0xDF then
      match rest with
      | b2 :: rest2 =>
        if isUtf8Cont b2 then
          (utf8Decode rest2).map (((b - 0xC0) * 0x40 + (b2 - 0x80)) :: ·)
        else none
      | [] => none
    else if b ≥ 0xE0 && b ≤ 0xEF then
      match rest with
      | b2 :: b3 :: rest3 =>
        let lo2 := if b == 0xE0 then 0xA0 else 0x80
        let hi2 := if b == 0xED then 0x9F else 0xBF
        if b2 ≥ lo2 && b2 ≤ hi2 && isUtf8Cont b3 then
          (utf8Decode rest3).map
            (((b - 0xE0) * 0x1000 + (b2 - 0x80) * 0x40 + (b3 - 0x80)) :: ·)
        else none
      | _ => none
    else if b ≥ 0xF0 && b ≤ 0xF4 then
      match rest with
      | b2 :: b3 :: b4 :: rest4 =>
        let lo2 := if b == 0xF0 then 0x90 else 0x80
        let hi2 := if b == 0xF4 then 0x8F else 0xBF
        if b2 ≥ lo2 && b2 ≤ hi2 && isUtf8Cont b3 && isUtf8Cont b4 then
          (utf8Decode rest4).map
            (((b - 0xF0) * 0x40000 + (b2 - 0x80) * 0x1000 +
              (b3 - 0x80) * 0x40 + (b4 - 0x80)) :: ·)
        else none
      | _ => none
    else none

/-- `std::str::from_utf8`, producing the decoded text as a `String`
(the foreign `Utf8Error` maps to `PErr.utf8`). -/
def from_utf8 (l : List Nat) : Except PErr String :=
  match utf8Decode l with
  | some cps => .ok ⟨cps.map Char.ofNat⟩
  | none => .error .utf8

/-! ## Pair and attribute decoding (src/cookie/parse/mod.rs) -/

/-- `parse::Quotable`. -/
inductive Quotable where
  | quoted (s : List Nat)
  | plain (s : List Nat)
deriving DecidableEq

/-- `parse::maybe_quoted`: if the text starts with a double quote, a closing
quote must be present (`MissingQuote` otherwise). -/
def maybe_quoted (text : List Nat) : Except PErr Quotable :=
  if text.length ≥ 1 && text.headD 0 == 0x22 then
    if text.length ≥ 2 && text.getLast? = some 0x22 then .ok (.quoted text)
    else .error .missingQuote
  else .ok (.plain text)

/-- `parse::next_token`. -/
def next_token (source : List Nat) : Except PErr (List Nat) :=
  non_zero_length (collect_matching source is_token_octet)

/-- `parse::next_cookie_value`: the maximal cookie-octet run, then the
quoting check. -/
def next_cookie_value (source : List Nat) : Except PErr Quotable :=
  match non_zero_length (collect_matching source is_cookie_octet) with
  | .error e => .error e
  | .ok run => maybe_quoted run

/-- `parse::next_fragment`. -/
def next_fragment (source : List Nat) : Except PErr (List Nat) :=
  non_zero_length (collect_matching source is_fragment_octet)

/-- `parse::split_cookie`: the leading fragment and the rest. -/
def split_cookie (source : List Nat) : Except PErr (List Nat × List Nat) :=
  match next_fragment source with
  | .error e => .error e
  | .ok cookie => .ok (cookie, source.drop cookie.length)

/-- `CookiePair::from_bytes`: name token, `=`, cookie value with optional
quoting; the whole matched slice is stored verbatim (UTF-8 validated), with
`value_location` computed per the quoting case. -/
def CookiePair.from_bytes (source : List Nat) : Except PErr CookiePair :=
  match next_token source with
  | .error e => .error e
  | .ok name =>
    let value_start := name.length + 1
    if !(source.length ≥ value_start &&
         (source.drop name.length).headD 0 == 0x3D) then
      .error .missingDelimiter
    else
      match next_cookie_value (source.drop value_start) with
      | .error e => .error e
      | .ok value =>
        let value_location :=
          match value with
          | .quoted v => (value_start + 1, v.length - 2)
          | .plain v => (value_start, v.length)
        match from_utf8 source with
        | .error e => .error e
        | .ok _ =>
          .ok { pair := source, name_len := name.length,
                value_location := value_location }

/-- `parse::Argument` — a classified attribute fragment.  `MaxAge` carries
the decoded number of seconds (`time::Duration::seconds`). -/
inductive Argument where
  | expires (t : Tm)
  | maxAge (seconds : Int)
  | domain (d : String)
  | path (p : String)
  | secure
  | httpOnly
  | extension (bytes : List Nat)
deriving DecidableEq

/-- Base-10 signed integer parsing, as `str::parse::<i64>` accepts it: an
optional sign followed by one or more digits (external `std`; overflow is
not modelled, no claim depends on it). -/
def parse_i64 (s : List Char) : Except PErr Int :=
  let (sign, digits) :=
    match s with
    | '+' :: rest => ((1 : Int), rest)
    | '-' :: rest => ((-1 : Int), rest)
    | _ => ((1 : Int), s)
  if digits.length > 0 && digits.all (fun c => c.isDigit) then
    .ok (sign * (digits.foldl (fun acc c => acc * 10 + ((c.toNat : Int) - 48)) 0))
  else .error .parseInt

/-- `Argument::decode`: classify one fragment by literal case-sensitive
prefix.  An `Expires=` fragment runs the cookie-date parser, whose
trailing-digit guard can panic — hence the outer `Option`. -/
def Argument.decode (fragment : List Nat) : Option (Except PErr Argument) :=
  if (strBytes "Expires=").isPrefixOf fragment then
    match cookie_date_parse (fragment.drop 8) with
    | none => none
    | some (.error e) => some (.error e)
    | some (.ok t) => some (.ok (.expires t))
  else if (strBytes "Max-Age=").isPrefixOf fragment then
    some (match from_utf8 (fragment.drop 8) with
      | .error e => .error e
      | .ok s =>
        match parse_i64 s.toList with
        | .error e => .error e
        | .ok n => .ok (.maxAge n))
  else if (strBytes "Domain=").isPrefixOf fragment then
    some (match from_utf8 (fragment.drop 7) with
      | .error e => .error e
      | .ok s => .ok (.domain s))
  else if (strBytes "Path=").isPrefixOf fragment then
    some (match from_utf8 (fragment.drop 5) with
      | .error e => .error e
      | .ok s => .ok (.path s))
  else if fragment = strBytes "Secure" then some (.ok .secure)
  else if fragment = strBytes "HttpOnly" then some (.ok .httpOnly)
  else some (.ok (.extension fragment))

/-- `ArgumentIter`, collected eagerly: each step demands the exact two-byte
separator `"; "`, takes the next fragment, and decodes it; iteration stops
at the first error, which `Builder::parse` then surfaces (so eager
collection is equivalent for every consumer in the source).  `fuel` bounds
the recursion; each step consumes at least three bytes, so any
`fuel > remaining.length` is exact. -/
def argumentsGo (fuel : Nat) (remaining : List Nat) :
    Option (Except PErr (List Argument)) :=
  match fuel with
  | 0 => some (.error .missingDelimiter)
  | fuel + 1 =>
    if remaining.length = 0 then some (.ok [])
    else if !(remaining.length ≥ 2 && remaining.take 2 = strBytes "; ") then
      some (.error .missingDelimiter)
    else
      match next_fragment (remaining.drop 2) with
      | .error e => some (.error e)
      | .ok frag =>
        match Argument.decode frag with
        | none => none
        | some (.error e) => some (.error e)
        | some (.ok arg) =>
          match argumentsGo fuel ((remaining.drop 2).drop frag.length) with
          | none => none
          | some (.error e) => some (.error e)
          | some (.ok args) => some (.ok (arg :: args))

/-! ## The builder (src/cookie/mod.rs) -/

/-- `cookie::Scheme` — the transport scheme recorded from the origin. -/
inductive Scheme where
  | http
  | https
  | other (s : String)
deriving DecidableEq

/-- `From<&Url> for Scheme`. -/
def Scheme.ofUrl (url : Url) : Scheme :=
  if url.scheme = "http" then .http
  else if url.scheme = "https" then .https
  else .other url.scheme

/-- `Scheme::is_http`. -/
def Scheme.is_http : Scheme → Bool
  | .http => true
  | .https => true
  | .other _ => false

/-- `Scheme::is_secure`. -/
def Scheme.is_secure : Scheme → Bool
  | .https => true
  | _ => false

/-- Model of the external `url::Host::parse` (URL parsing is an external
collaborator per the spec): a dotted quad of decimal numbers in range
parses as an IPv4 address, a bracketed literal as IPv6, anything else as a
domain name.  (IDNA normalisation of unusual domains is not modelled; every
domain below is already canonical ASCII.) -/
def Host.parse (s : String) : Except Err Host :=
  let parts := splitOnChar '.' s.toList
  let isV4 := parts.length = 4 &&
    parts.all (fun p => p.length > 0 && p.all Char.isDigit &&
      p.foldl (fun acc c => acc * 10 + (c.toNat - 48)) 0 ≤ 255)
  if isV4 then
    .ok (.ipv4 (parts.foldl
      (fun acc p => acc * 256 + p.foldl (fun a c => a * 10 + (c.toNat - 48)) 0) 0))
  else if s.toList.headD ' ' = '[' then
    if s.toList.getLast? = some ']' then .ok (.ipv6 0) else .error .urlParse
  else if s = "" then .error .urlParse
  else .ok (.domain s)

/-- `cookie::Builder` — the state threaded through attribute resolution. -/
structure Builder where
  host : Option Host
  path : Option String
  scheme : Option Scheme
  attributes : Attributes
  error : Option Err

/-- `Builder::new` / `Default for Builder`. -/
def Builder.new : Builder :=
  { host := none, path := none, scheme := none,
    attributes := Attributes.default, error := none }

/-- `Builder::error`: record the first error only. -/
def Builder.setError (b : Builder) (e : Err) : Builder :=
  match b.error with
  | none => { b with error := some e }
  | some _ => b

/-- `Builder::origin`: seed host, directory path and scheme from the origin
URL and mark the cookie host-only; `InvalidOrigin` if the URL has no host.
The source calls `url_dir_path(origin)` unconditionally in the host branch,
so its `unwrap` panic propagates (outer `none`). -/
def Builder.origin (b : Builder) (origin : Url) : Option Builder :=
  match origin.host with
  | some host =>
    match url_dir_path origin with
    | none => none
    | some dir =>
      some { b with
        host := some host
        path := some dir
        scheme := some (Scheme.ofUrl origin)
        attributes := { b.attributes with host_only := true } }
  | none => some (b.setError .invalidOrigin)

/-- `Builder::host`: exact-host scope. -/
def Builder.withHost (b : Builder) (host : Host) : Builder :=
  { b with host := some host
           attributes := { b.attributes with host_only := true } }

/-- `Builder::domain`: suffix scope through `Host::parse`; a parse failure
records the error. -/
def Builder.domain (b : Builder) (domain : String) : Builder :=
  match Host.parse domain with
  | .ok host =>
    { b with host := some host
             attributes := { b.attributes with host_only := false } }
  | .error e => b.setError e

/-- `Builder::path`. -/
def Builder.withPath (b : Builder) (path : String) : Builder :=
  { b with path := some path }

/-- `Builder::pair`. -/
def Builder.withPair (b : Builder) (pair : CookiePair) : Builder :=
  { b with attributes := { b.attributes with pair := pair } }

/-- `Builder::expiry`. -/
def Builder.expiry (b : Builder) (time : Tm) : Builder :=
  { b with attributes := { b.attributes with expiry := .atUtc time } }

/-- `Builder::secure`: requires a TLS seeding scheme when enabling. -/
def Builder.secure (b : Builder) (secure : Bool) : Builder :=
  match b.scheme with
  | some scheme =>
    if secure && !scheme.is_secure then b.setError .insecureOrigin
    else { b with attributes := { b.attributes with secure := secure } }
  | none => { b with attributes := { b.attributes with secure := secure } }

/-- `Builder::http_only`: requires an HTTP(S) seeding scheme when
enabling. -/
def Builder.http_only (b : Builder) (http_only : Bool) : Builder :=
  match b.scheme with
  | some scheme =>
    if http_only && !scheme.is_http then b.setError .nonHttpOrigin
    else { b with attributes := { b.attributes with http_only := http_only } }
  | none => { b with attributes := { b.attributes with http_only := http_only } }

/-- `cookie::SetCookie`. -/
structure SetCookie where
  domain : Option String
  path : Option String
  attributes : Attributes
deriving DecidableEq

/-- `Builder::build_set_cookie`: a recorded error wins; a domain-name host
or no host at all succeeds; the remaining case — an IP-literal host — is
`HostInvalid`. -/
def Builder.build_set_cookie (b : Builder) : Except Err SetCookie :=
  match b.error with
  | some e => .error e
  | none =>
    match b.host with
    | some (.domain d) => .ok ⟨some d, b.path, b.attributes⟩
    | none => .ok ⟨none, b.path, b.attributes⟩
    | some _ => .error .hostInvalid

/-- `Builder::build_cookie`: a recorded error wins; a missing host or path
is `MissingDomain`; otherwise the cookie is finalized. -/
def Builder.build_cookie (b : Builder) : Except Err Cookie :=
  match b.error with
  | some e => .error e
  | none =>
    match b.host, b.path with
    | none, _ => .error .missingDomain
    | some _, none => .error .missingDomain
    | some host, some path => .ok ⟨host, path, b.attributes⟩

/-- The `now_utc() + duration` of `Builder::parse`'s `Max-Age` arm: the
injected wall clock composed with the external `time` crate's
`Tm + Duration` addition.  It enters every statement below only as this
opaque-by-parameterization function argument. -/
def applyArg (now_plus : Int → Tm) (st : Builder × Bool) (arg : Argument) :
    Builder × Bool :=
  let (builder, use_max_age) := st
  match arg, use_max_age with
  | .expires time, false => (builder.expiry time, use_max_age)
  | .maxAge duration, _ => (builder.expiry (now_plus duration), true)
  | .domain domain, _ => (builder.domain domain, use_max_age)
  | .path path, _ => (builder.withPath path, use_max_age)
  | .secure, _ => (builder.secure true, use_max_age)
  | .httpOnly, _ => (builder.http_only true, use_max_age)
  | _, _ => st

/-- The attribute loop of `Builder::parse` (lines 288-314): a fold of
`applyArg` threading the `use_max_age` flag, which starts `false`. -/
def applyArgs (now_plus : Int → Tm) (st : Builder × Bool)
    (args : List Argument) : Builder × Bool :=
  args.foldl (applyArg now_plus) st

/-- `Builder::parse`: split off the pair, set it, then run the attribute
loop.  Errors from pair or argument decoding surface as `Err.cookieParse`;
a date-guard panic propagates (outer `none`). -/
def Builder.parse (b : Builder) (cookie : List Nat) (now_plus : Int → Tm) :
    Option (Except Err Builder) :=
  match split_cookie cookie with
  | .error e => some (.error (.cookieParse e))
  | .ok (pairBytes, argBytes) =>
    match CookiePair.from_bytes pairBytes with
    | .error e => some (.error (.cookieParse e))
    | .ok pair =>
      match argumentsGo (argBytes.length + 1) argBytes with
      | none => none
      | some (.error e) => some (.error (.cookieParse e))
      | some (.ok args) =>
        some (.ok (applyArgs now_plus (b.withPair pair, false) args).1)

/-- `Cookie::parse`: seed the builder from the origin, parse the header,
finalize. -/
def Cookie.parse (set_cookie : List Nat) (origin : Url)
    (now_plus : Int → Tm) : Option (Except Err Cookie) :=
  match Builder.new.origin origin with
  | none => none
  | some seeded =>
    match seeded.parse set_cookie now_plus with
    | none => none
    | some (.error e) => some (.error e)
    | some (.ok b) => some b.build_cookie

/-! ## Theorems -/

/-- C4: the claim states that `add_cookie` and `url_matches` are total and
can never abort with an uncatchable fault.  `add_cookie` is total (it is a
plain function here), but `url_matches` is not: `url_dir_path` computes
`path.rfind('/').unwrap()`, which panics whenever the request URL's path
contains no `/` — e.g. a non-special-scheme URL such as
`foo://example.com`, whose path is empty.  The `none` results below are
exactly that panic. -/
theorem url_matches_faults_on_slashless_path :
    Jar.empty.url_matches ⟨some (.domain "example.com"), "", "foo"⟩ = none ∧
    url_dir_path ⟨some (.domain "example.com"), "", "foo"⟩ = none ∧
    url_dir_path ⟨none, "user@example.com", "mailto"⟩ = none := by
  refine ⟨rfl, rfl, rfl⟩

/-- C5: the claim states the cookie-date parser never faults and rejects a
day/year token with a trailing digit.  On input `"123"` the day decoder
consumes two digits, leaving the single byte `"3"`; the trailing-digit
guard then reads `remaining[1]` (not `remaining[0]`), which is out of
bounds — an index panic, modelled by the `none` result. -/
theorem date_parse_faults_on_trailing_digit_token :
    cookie_date_parse (strBytes "123") = none := by
  rfl

/-- C6: the claim states Feb 29 is accepted exactly for calendar years
divisible by 400, or by 4 and not by 100, and that Feb 29 2000 parses.  The
code applies the leap-year rule to `tm_year = year - 1900`, so the year
2000 (stored as 100) is judged a non-leap year and Feb 29 2000 fails with
`InvalidDate`, while 2032 (stored 132) and the failure of 2031 behave as
claimed. -/
theorem feb29_year2000_rejected :
    cookie_date_parse (strBytes "29 Feb 2000 00:00:00") =
      some (.error .invalidDate) ∧
    cookie_date_parse (strBytes "29 Feb 2032 00:00:00") =
      some (.ok ⟨0, 0, 0, 29, 1, 132, 0, 0, 0, 0, 0⟩) ∧
    cookie_date_parse (strBytes "29 Feb 2031 00:00:00") =
      some (.error .invalidDate) ∧
    (2000 : Int).tmod 400 = 0 := by
  refine ⟨by rfl, by rfl, by rfl, by rfl⟩

/-- C7: the claim states parsing fails with `InvalidDate` whenever the
minutes lie outside `[0, 60)`.  The validation in `into_time` tests
`second < 60` twice and never bounds `minute` above, so a 99-minute time
parses successfully: the result below carries `tm_min = 99`. -/
theorem minute_99_accepted :
    cookie_date_parse (strBytes "01 Jan 2000 12:99:13") =
      some (.ok ⟨13, 99, 12, 1, 0, 100, 0, 0, 0, 0, 0⟩) := by
  rfl

/-- C8: the claim states a quote-wrapped value decodes successfully with
the quotes preserved in the stored text and stripped by the accessor.  But
`next_cookie_value` collects the maximal cookie-octet run *before* the
quoting check, and neither `"` (0x22) nor the space are cookie-octets, so
the collected run is empty and decoding fails with `NotEnoughBytes`; the
`Quoted` branch of `maybe_quoted` is unreachable from `next_cookie_value`.
Even a quoted value without a space fails the same way. -/
theorem quoted_value_fails_not_enough_bytes :
    CookiePair.from_bytes (strBytes "x=\"a b\"") =
      .error .notEnoughBytes ∧
    CookiePair.from_bytes (strBytes "x=\"ab\"") =
      .error .notEnoughBytes ∧
    next_cookie_value (strBytes "\"a b\"") = .error .notEnoughBytes := by
  refine ⟨by rfl, by rfl, by rfl⟩

/-- C10: with no recorded error, an IP-literal host makes
`build_set_cookie` fail with `HostInvalid`; and every successful
`build_set_cookie` reflects either a domain-name host or no host at all —
never an IP literal. -/
theorem build_set_cookie_rejects_ip_host (b : Builder) :
    (b.error = none →
      ∀ a, b.host = some (Host.ipv4 a) ∨ b.host = some (Host.ipv6 a) →
        b.build_set_cookie = .error .hostInvalid) ∧
    (∀ sc, b.build_set_cookie = .ok sc →
      (b.host = none ∧ sc.domain = none) ∨
      ∃ d, b.host = some (Host.domain d) ∧ sc.domain = some d) := by
  constructor
  · intro herr a hip
    rcases hip with h | h <;>
      simp [Builder.build_set_cookie, herr, h]
  · intro sc hok
    unfold Builder.build_set_cookie at hok
    rcases hb : b.error with _ | e
    · rw [hb] at hok
      rcases hh : b.host with _ | host
      · rw [hh] at hok
        simp at hok
        simp [← hok]
      · rcases host with d | a | a <;> rw [hh] at hok <;> simp at hok
        exact .inr ⟨d, rfl, by simp [← hok]⟩
    · rw [hb] at hok
      simp at hok

/-- C10 witness: a fresh builder given the IPv4 host `5` is rejected with
`HostInvalid`. -/
theorem build_set_cookie_rejects_ip_host_witness :
    (Builder.new.withHost (Host.ipv4 5)).build_set_cookie =
      .error .hostInvalid :=
  (build_set_cookie_rejects_ip_host (Builder.new.withHost (Host.ipv4 5))).1
    rfl 5 (.inl rfl)

/-- Every builder transformation performed for a non-`MaxAge`,
non-`Expires` argument leaves the recorded expiry untouched. -/
theorem applyArg_expiry_preserved (now_plus : Int → Tm) (st : Builder × Bool)
    (arg : Argument) (hm : ∀ d, arg ≠ .maxAge d) (he : ∀ t, arg ≠ .expires t) :
    ((applyArg now_plus st arg).1).attributes.expiry =
      st.1.attributes.expiry := by
  obtain ⟨b, flag⟩ := st
  cases arg with
  | expires t => exact absurd rfl (he t)
  | maxAge d => exact absurd rfl (hm d)
  | domain s =>
    simp only [applyArg, Builder.domain]
    cases Host.parse s
    · simp only [Builder.setError]
      split <;> rfl
    · rfl
  | path p => rfl
  | secure =>
    simp only [applyArg, Builder.secure]
    cases hs : b.scheme
    · rfl
    · simp only [Builder.setError]
      split
      · split <;> rfl
      · rfl
  | httpOnly =>
    simp only [applyArg, Builder.http_only]
    cases hs : b.scheme
    · rfl
    · simp only [Builder.setError]
      split
      · split <;> rfl
      · rfl
  | extension bs => rfl

/-- Once the `use_max_age` flag is set, a run of arguments containing no
further `Max-Age` leaves both the expiry and the flag unchanged (in
particular every subsequent `Expires` is ignored). -/
theorem applyArgs_flagged_expiry_preserved (now_plus : Int → Tm)
    (args : List Argument) (hm : ∀ d, Argument.maxAge d ∉ args) (b : Builder) :
    ((applyArgs now_plus (b, true) args).1).attributes.expiry =
        b.attributes.expiry ∧
      (applyArgs now_plus (b, true) args).2 = true := by
  induction args generalizing b with
  | nil => exact ⟨rfl, rfl⟩
  | cons arg rest ih =>
    have hm' : ∀ d, Argument.maxAge d ∉ rest := by
      intro d hd
      exact hm d (List.mem_cons_of_mem _ hd)
    have hmarg : ∀ d, arg ≠ .maxAge d := by
      intro d h
      exact hm d (h ▸ List.mem_cons_self _ _)
    have hstep : ((applyArg now_plus (b, true) arg).1).attributes.expiry =
        b.attributes.expiry ∧ (applyArg now_plus (b, true) arg).2 = true := by
      cases arg with
      | expires t => exact ⟨rfl, rfl⟩
      | maxAge d => exact absurd rfl (hmarg d)
      | domain s =>
        exact ⟨applyArg_expiry_preserved now_plus (b, true) (.domain s)
          (fun x h => by cases h) (fun x h => by cases h), rfl⟩
      | path p => exact ⟨rfl, rfl⟩
      | secure =>
        exact ⟨applyArg_expiry_preserved now_plus (b, true) .secure
          (fun x h => by cases h) (fun x h => by cases h), rfl⟩
      | httpOnly =>
        exact ⟨applyArg_expiry_preserved now_plus (b, true) .httpOnly
          (fun x h => by cases h) (fun x h => by cases h), rfl⟩
      | extension bs => exact ⟨rfl, rfl⟩
    obtain ⟨e1, e2⟩ := hstep
    rcases hsplit : applyArg now_plus (b, true) arg with ⟨b2, fl2⟩
    rw [hsplit] at e1 e2
    subst e2
    unfold applyArgs
    rw [List.foldl_cons, hsplit]
    exact ⟨(ih hm' b2).1.trans e1, (ih hm' b2).2⟩

/-- C3: Max-Age always wins.  For any starting builder state and any
argument sequence in which a `Max-Age` of `d` seconds is followed by no
further `Max-Age` (the preceding arguments `args₁` are arbitrary and may
contain any mixture of `Expires` and other attributes, and `args₂` may
contain further `Expires`), the resulting expiry is exactly
`now + d seconds` — `now_plus d`, the injected clock plus the Max-Age
duration. -/
theorem max_age_always_wins (now_plus : Int → Tm) (b : Builder) (flag : Bool)
    (args₁ args₂ : List Argument) (d : Int)
    (hm : ∀ d', Argument.maxAge d' ∉ args₂) :
    ((applyArgs now_plus (b, flag)
        (args₁ ++ Argument.maxAge d :: args₂)).1).attributes.expiry =
      Expires.atUtc (now_plus d) := by
  unfold applyArgs
  rw [List.foldl_append]
  have : List.foldl (applyArg now_plus)
      (List.foldl (applyArg now_plus) (b, flag) args₁) (.maxAge d :: args₂) =
      applyArgs now_plus
        (((List.foldl (applyArg now_plus) (b, flag) args₁).1).expiry
            (now_plus d), true) args₂ := by
    rw [List.foldl_cons]
    show List.foldl _ (applyArg now_plus _ (.maxAge d)) args₂ = _
    obtain ⟨b', flag'⟩ := List.foldl (applyArg now_plus) (b, flag) args₁
    rfl
  rw [this]
  exact (applyArgs_flagged_expiry_preserved now_plus args₂ hm _).1

/-- C3 witness: both `Expires` then `Max-Age=10` and `Max-Age=10` then
`Expires` yield an expiry of now plus ten seconds, for a concrete clock. -/
theorem max_age_always_wins_witness :
    ((applyArgs (fun d => ⟨d, 0, 0, 0, 0, 0, 0, 0, 0, 0, 0⟩)
        (Builder.new, false)
        [Argument.expires ⟨37, 49, 8, 6, 10, 94, 0, 0, 0, 0, 0⟩,
         Argument.maxAge 10]).1).attributes.expiry =
      Expires.atUtc ⟨10, 0, 0, 0, 0, 0, 0, 0, 0, 0, 0⟩ ∧
    ((applyArgs (fun d => ⟨d, 0, 0, 0, 0, 0, 0, 0, 0, 0, 0⟩)
        (Builder.new, false)
        [Argument.maxAge 10,
         Argument.expires ⟨37, 49, 8, 6, 10, 94, 0, 0, 0, 0, 0⟩]).1).attributes.expiry =
      Expires.atUtc ⟨10, 0, 0, 0, 0, 0, 0, 0, 0, 0, 0⟩ := by
  constructor
  · exact max_age_always_wins (fun d => ⟨d, 0, 0, 0, 0, 0, 0, 0, 0, 0, 0⟩)
      Builder.new false [Argument.expires ⟨37, 49, 8, 6, 10, 94, 0, 0, 0, 0, 0⟩]
      [] 10 (by intro d' h; cases h)
  · exact max_age_always_wins (fun d => ⟨d, 0, 0, 0, 0, 0, 0, 0, 0, 0, 0⟩)
      Builder.new false []
      [Argument.expires ⟨37, 49, 8, 6, 10, 94, 0, 0, 0, 0, 0⟩] 10
      (by intro d' h; simp at h)

/-- C9 counterexample: the claim states a cookie parsed against an
IP-literal origin keeps the IP host and `host_only = true` even when the
header supplies a `Domain` attribute.  Parsing `a=b; Domain=example.com`
against the origin `http://192.168.0.1/` shows the opposite:
`Builder::domain` unconditionally replaces the host with the parsed domain
and clears `host_only`, so the finalized cookie is suffix-scoped to
`example.com`. -/
theorem domain_attribute_overrides_ip_origin :
    Cookie.parse (strBytes "a=b; Domain=example.com")
        ⟨some (.ipv4 3232235521), "/", "http"⟩
        (fun _ => ⟨0, 0, 0, 0, 0, 0, 0, 0, 0, 0, 0⟩) =
      some (.ok ⟨.domain "example.com", "/",
        ⟨⟨strBytes "a=b", 1, (2, 1)⟩, .never, false, false, false⟩⟩) := by
  rfl

/-- Every builder transformation performed for a non-`Domain` argument
leaves both the host and the `host_only` flag untouched. -/
theorem applyArg_host_preserved (now_plus : Int → Tm) (st : Builder × Bool)
    (arg : Argument) (hd : ∀ s, arg ≠ .domain s) :
    (applyArg now_plus st arg).1.host = st.1.host ∧
      (applyArg now_plus st arg).1.attributes.host_only =
        st.1.attributes.host_only := by
  obtain ⟨b, flag⟩ := st
  cases arg with
  | expires t => cases flag <;> exact ⟨rfl, rfl⟩
  | maxAge d => exact ⟨rfl, rfl⟩
  | domain s => exact absurd rfl (hd s)
  | path p => exact ⟨rfl, rfl⟩
  | secure =>
    simp only [applyArg, Builder.secure]
    cases hs : b.scheme
    · exact ⟨rfl, rfl⟩
    · simp only [Builder.setError]
      split
      · split <;> exact ⟨rfl, rfl⟩
      · exact ⟨rfl, rfl⟩
  | httpOnly =>
    simp only [applyArg, Builder.http_only]
    cases hs : b.scheme
    · exact ⟨rfl, rfl⟩
    · simp only [Builder.setError]
      split
      · split <;> exact ⟨rfl, rfl⟩
      · exact ⟨rfl, rfl⟩
  | extension bs => exact ⟨rfl, rfl⟩

/-- An argument run containing no `Domain` attribute preserves the host and
the `host_only` flag of the builder it starts from. -/
theorem applyArgs_host_preserved (now_plus : Int → Tm) (args : List Argument)
    (hd : ∀ s, Argument.domain s ∉ args) (st : Builder × Bool) :
    (applyArgs now_plus st args).1.host = st.1.host ∧
      (applyArgs now_plus st args).1.attributes.host_only =
        st.1.attributes.host_only := by
  induction args generalizing st with
  | nil => exact ⟨rfl, rfl⟩
  | cons arg rest ih =>
    have hd' : ∀ s, Argument.domain s ∉ rest := by
      intro s hs
      exact hd s (List.mem_cons_of_mem _ hs)
    have hdarg : ∀ s, arg ≠ .domain s := by
      intro s h
      exact hd s (h ▸ List.mem_cons_self _ _)
    have hstep := applyArg_host_preserved now_plus st arg hdarg
    have : applyArgs now_plus st (arg :: rest) =
        applyArgs now_plus (applyArg now_plus st arg) rest := rfl
    rw [this]
    exact ⟨(ih hd' _).1.trans hstep.1, (ih hd' _).2.trans hstep.2⟩

/-- C9 amended: an IP-literal origin finalizes host-only with the IP host
*only when the header has no `Domain` attribute*; a `Domain` attribute
whose value parses replaces the host — IP or not — with the parsed domain
and clears `host_only`.  Both halves are stated over the attribute loop of
`Builder::parse`, starting from the builder seeded by `origin`. -/
theorem ip_origin_host_only_unless_domain_attribute
    (u : Url) (a : Nat) (p : CookiePair) (dir : String) (now_plus : Int → Tm)
    (args args₁ args₂ : List Argument) (s : String) (h : Host)
    (hu : u.host = some (Host.ipv4 a)) (hdir : url_dir_path u = some dir)
    (hnd : ∀ t, Argument.domain t ∉ args)
    (hps : Host.parse s = .ok h)
    (hnd₂ : ∀ t, Argument.domain t ∉ args₂) :
    ∃ seeded, Builder.new.origin u = some seeded ∧
      ((applyArgs now_plus (seeded.withPair p, false) args).1.host =
          some (Host.ipv4 a) ∧
        (applyArgs now_plus (seeded.withPair p, false) args).1.attributes.host_only
          = true) ∧
      ((applyArgs now_plus (seeded.withPair p, false)
            (args₁ ++ Argument.domain s :: args₂)).1.host = some h ∧
        (applyArgs now_plus (seeded.withPair p, false)
            (args₁ ++ Argument.domain s :: args₂)).1.attributes.host_only
          = false) := by
  have hdom : ∀ (st : Builder × Bool),
      (applyArg now_plus st (.domain s)).1.host = some h ∧
        (applyArg now_plus st (.domain s)).1.attributes.host_only = false := by
    intro st
    obtain ⟨b, fl⟩ := st
    simp only [applyArg, Builder.domain]
    rw [hps]
    exact ⟨rfl, rfl⟩
  unfold Builder.origin
  rw [hu, hdir]
  refine ⟨_, rfl, ?_, ?_⟩
  · exact ⟨(applyArgs_host_preserved now_plus args hnd _).1,
      (applyArgs_host_preserved now_plus args hnd _).2⟩
  · unfold applyArgs
    rw [List.foldl_append, List.foldl_cons]
    exact ⟨(applyArgs_host_preserved now_plus args₂ hnd₂ _).1.trans (hdom _).1,
      (applyArgs_host_preserved now_plus args₂ hnd₂ _).2.trans (hdom _).2⟩

/-- C9 amended witness: at the origin `http://[ip 1]/`, a header with only
a `Path` attribute keeps the IP host with `host_only = true`, while a
`Domain=example.com` attribute rescopes the cookie to `example.com` with
`host_only = false`. -/
theorem ip_origin_host_only_unless_domain_attribute_witness :
    ∃ seeded,
      Builder.new.origin ⟨some (.ipv4 1), "/", "http"⟩ = some seeded ∧
      ((applyArgs (fun _ => ⟨0, 0, 0, 0, 0, 0, 0, 0, 0, 0, 0⟩)
          (seeded.withPair ⟨strBytes "a=b", 1, (2, 1)⟩, false)
          [Argument.path "/x"]).1.host = some (Host.ipv4 1) ∧
        (applyArgs (fun _ => ⟨0, 0, 0, 0, 0, 0, 0, 0, 0, 0, 0⟩)
          (seeded.withPair ⟨strBytes "a=b", 1, (2, 1)⟩, false)
          [Argument.path "/x"]).1.attributes.host_only = true) ∧
      ((applyArgs (fun _ => ⟨0, 0, 0, 0, 0, 0, 0, 0, 0, 0, 0⟩)
          (seeded.withPair ⟨strBytes "a=b", 1, (2, 1)⟩, false)
          ([] ++ Argument.domain "example.com" :: [])).1.host =
          some (Host.domain "example.com") ∧
        (applyArgs (fun _ => ⟨0, 0, 0, 0, 0, 0, 0, 0, 0, 0, 0⟩)
          (seeded.withPair ⟨strBytes "a=b", 1, (2, 1)⟩, false)
          ([] ++ Argument.domain "example.com" :: [])).1.attributes.host_only =
          false) :=
  ip_origin_host_only_unless_domain_attribute
    ⟨some (.ipv4 1), "/", "http"⟩ 1 ⟨strBytes "a=b", 1, (2, 1)⟩ "/"
    (fun _ => ⟨0, 0, 0, 0, 0, 0, 0, 0, 0, 0, 0⟩)
    [Argument.path "/x"] [] [] "example.com" (Host.domain "example.com")
    rfl rfl (by intro t ht; simp at ht) rfl (by intro t ht; simp at ht)

/-- An empty path trie yields no matches. -/
theorem pathT_default_match (segs : List (List Char)) (hm : HostMatch) :
    PathT.default.match_url segs hm = [] := by
  cases segs <;> rfl

/-- Characterization of lookup in a path trie holding a single cookie: the
pair is produced exactly when the stored segment list is a prefix of the
queried one and the host-match filter passes (`Exact` always, `Suffix` only
for non-host-only cookies). -/
theorem pathT_single_cookie_match (segs qsegs : List (List Char))
    (a : Attributes) (hm : HostMatch) :
    (PathT.default.add_cookie segs a).match_url qsegs hm =
      if segs <+: qsegs ∧ (hm = .exact ∨ a.host_only = false)
      then [a.pair] else [] := by
  induction segs generalizing qsegs with
  | nil =>
    have hleaf : (PathT.default.add_cookie [] a).match_url qsegs hm =
        if hm = .exact ∨ a.host_only = false then [a.pair] else [] := by
      rcases hm <;> rcases hho : a.host_only <;>
        rcases qsegs with _ | ⟨q, qrest⟩ <;>
          simp [PathT.add_cookie, PathT.default, PathT.match_url,
            PathT.cookies, PathT.children, alInsert, alGet, hho, List.filter]
    rw [hleaf]
    refine if_congr ?_ rfl rfl
    simp [ List.nil_prefix]
  | cons s rest ih =>
    rcases qsegs with _ | ⟨q, qrest⟩
    · have hnone : (PathT.default.add_cookie (s :: rest) a).match_url [] hm =
          [] := rfl
      rw [hnone, if_neg]
      rintro ⟨hpre, -⟩
      simp at hpre
    · by_cases hq : s = q
      · subst hq
        have hstep : (PathT.default.add_cookie (s :: rest) a).match_url
            (s :: qrest) hm =
            (PathT.default.add_cookie rest a).match_url qrest hm := by
          simp [PathT.add_cookie, PathT.default, PathT.match_url,
            PathT.cookies, PathT.children, alUpdate, alGet, List.filter]
        rw [hstep, ih]
        refine if_congr ?_ rfl rfl
        simp [ List.cons_prefix_cons]
      · have hstep : (PathT.default.add_cookie (s :: rest) a).match_url
            (q :: qrest) hm = [] := by
          simp [PathT.add_cookie, PathT.default, PathT.match_url,
            PathT.cookies, PathT.children, alUpdate, alGet, hq, List.filter]
        rw [hstep, if_neg]
        rintro ⟨hpre, -⟩
        exact hq (List.cons_prefix_cons.mp hpre).1

/-- An empty domain trie yields no matches. -/
theorem domainT_default_match (rsegs qsegs : List (List Char)) :
    DomainT.default.match_url rsegs qsegs = [] := by
  cases rsegs <;>
    simp [DomainT.match_url, DomainT.default, DomainT.path, DomainT.children,
      alGet, pathT_default_match]

/-- Characterization of lookup in a domain trie holding a single cookie
(segment lists in pop order, i.e. reversed): the cookie's pair is produced
exactly when the stored domain-segment list is a prefix of the queried one
(so the request host is the stored domain or a subdomain of it), the stored
path-segment list is a prefix of the queried one, and either the two hosts
coincide (the exact node, `HostMatch::Exact`) or the cookie is not
host-only (`HostMatch::Suffix` at a strict ancestor). -/
theorem domainT_single_cookie_match
    (rdsegs rhsegs psegs qsegs : List (List Char)) (a : Attributes) :
    (DomainT.default.add_cookie rdsegs psegs a).match_url rhsegs qsegs =
      if rdsegs <+: rhsegs ∧ psegs <+: qsegs ∧
          (rdsegs = rhsegs ∨ a.host_only = false)
      then [a.pair] else [] := by
  induction rdsegs generalizing rhsegs with
  | nil =>
    rcases rhsegs with _ | ⟨h, hrest⟩
    · have hexact : (DomainT.default.add_cookie [] psegs a).match_url [] qsegs =
          (PathT.default.add_cookie psegs a).match_url qsegs .exact := rfl
      rw [hexact, pathT_single_cookie_match]
      refine if_congr ?_ rfl rfl
      simp [ List.nil_prefix]
    · have hanc : (DomainT.default.add_cookie [] psegs a).match_url
          (h :: hrest) qsegs =
          (PathT.default.add_cookie psegs a).match_url qsegs .suffix := rfl
      rw [hanc, pathT_single_cookie_match]
      refine if_congr ?_ rfl rfl
      constructor
      · rintro ⟨hp, hpass⟩
        rcases hpass with hpass | hpass
        · cases hpass
        · exact ⟨List.nil_prefix, hp, .inr hpass⟩
      · rintro ⟨-, hp, hpass⟩
        rcases hpass with hpass | hpass
        · cases hpass
        · exact ⟨hp, .inr hpass⟩
  | cons s rest ih =>
    rcases rhsegs with _ | ⟨h, hrest⟩
    · have hnone : (DomainT.default.add_cookie (s :: rest) psegs a).match_url
          [] qsegs = PathT.default.match_url qsegs .exact := rfl
      rw [hnone, pathT_default_match, if_neg]
      rintro ⟨hpre, -⟩
      simp at hpre
    · by_cases hq : s = h
      · subst hq
        have hstep : (DomainT.default.add_cookie (s :: rest) psegs a).match_url
            (s :: hrest) qsegs =
            PathT.default.match_url qsegs .suffix ++
              (DomainT.default.add_cookie rest psegs a).match_url hrest qsegs := by
          simp [DomainT.add_cookie, DomainT.default, DomainT.match_url,
            DomainT.path, DomainT.children, alUpdate, alGet]
        rw [hstep, pathT_default_match, List.nil_append, ih]
        refine if_congr ?_ rfl rfl
        simp [ List.cons_prefix_cons]
      · have hstep : (DomainT.default.add_cookie (s :: rest) psegs a).match_url
            (h :: hrest) qsegs = PathT.default.match_url qsegs .suffix := by
          simp [DomainT.add_cookie, DomainT.default, DomainT.match_url,
            DomainT.path, DomainT.children, alUpdate, alGet, hq]
        rw [hstep, pathT_default_match, if_neg]
        rintro ⟨hpre, -⟩
        exact hq (List.cons_prefix_cons.mp hpre).1

/-- C1: host-only versus suffix matching.  For a jar holding one cookie
stored under domain `D` with path `P`, a request URL with domain host `H`
whose directory path is `dir` receives the cookie exactly when: `D`'s
(reversed, trie-order) segment list is a prefix of `H`'s — i.e. `H` is `D`
or a subdomain of `D` —, the stored path segments prefix the request's
(path permitting), and either the hosts' segment lists coincide (the exact
trie node, which contributes regardless of `host_only`) or the cookie is
not host-only (strict-ancestor nodes contribute only suffix-matchable
cookies).  In particular a host-only cookie is never returned for a
different or sub-host, and a suffix cookie is returned for the named domain
and every subdomain. -/
theorem jar_host_only_vs_suffix_matching
    (D P H : String) (a : Attributes) (u : Url) (dir : String)
    (hh : u.host = some (Host.domain H)) (hd : url_dir_path u = some dir) :
    (Jar.empty.add_cookie ⟨Host.domain D, P, a⟩).url_matches u =
      some (if (domainSegs D).reverse <+: (domainSegs H).reverse ∧
               pathSegs P <+: pathSegs dir ∧
               ((domainSegs D).reverse = (domainSegs H).reverse ∨
                 a.host_only = false)
            then [a.pair] else []) := by
  simp only [Jar.url_matches, hd, hh, Jar.add_cookie, Jar.empty]
  rw [domainT_single_cookie_match]

/-- C1 witness, instantiating the spec's examples: the host-only cookie
set at `www.example.com` is not returned for `other.example.com`, while the
suffix cookie with `Domain=example.com` is returned for `www.example.com`,
`example.com` and `sub.www.example.com`. -/
theorem jar_host_only_vs_suffix_matching_witness :
    ((Jar.empty.add_cookie ⟨Host.domain "www.example.com", "/",
        ⟨⟨strBytes "a=b", 1, (2, 1)⟩, .never, true, false, false⟩⟩).url_matches
        ⟨some (.domain "other.example.com"), "/", "http"⟩ = some []) ∧
    ((Jar.empty.add_cookie ⟨Host.domain "example.com", "/",
        ⟨⟨strBytes "a=b", 1, (2, 1)⟩, .never, false, false, false⟩⟩).url_matches
        ⟨some (.domain "www.example.com"), "/", "http"⟩ =
      some [⟨strBytes "a=b", 1, (2, 1)⟩]) ∧
    ((Jar.empty.add_cookie ⟨Host.domain "example.com", "/",
        ⟨⟨strBytes "a=b", 1, (2, 1)⟩, .never, false, false, false⟩⟩).url_matches
        ⟨some (.domain "example.com"), "/", "http"⟩ =
      some [⟨strBytes "a=b", 1, (2, 1)⟩]) ∧
    ((Jar.empty.add_cookie ⟨Host.domain "example.com", "/",
        ⟨⟨strBytes "a=b", 1, (2, 1)⟩, .never, false, false, false⟩⟩).url_matches
        ⟨some (.domain "sub.www.example.com"), "/", "http"⟩ =
      some [⟨strBytes "a=b", 1, (2, 1)⟩]) := by
  refine ⟨?_, ?_, ?_, ?_⟩
  · exact (jar_host_only_vs_suffix_matching "www.example.com" "/"
      "other.example.com"
      ⟨⟨strBytes "a=b", 1, (2, 1)⟩, .never, true, false, false⟩
      ⟨some (.domain "other.example.com"), "/", "http"⟩ "/" rfl rfl).trans
      (by decide)
  · exact (jar_host_only_vs_suffix_matching "example.com" "/"
      "www.example.com"
      ⟨⟨strBytes "a=b", 1, (2, 1)⟩, .never, false, false, false⟩
      ⟨some (.domain "www.example.com"), "/", "http"⟩ "/" rfl rfl).trans
      (by decide)
  · exact (jar_host_only_vs_suffix_matching "example.com" "/"
      "example.com"
      ⟨⟨strBytes "a=b", 1, (2, 1)⟩, .never, false, false, false⟩
      ⟨some (.domain "example.com"), "/", "http"⟩ "/" rfl rfl).trans
      (by decide)
  · exact (jar_host_only_vs_suffix_matching "example.com" "/"
      "sub.www.example.com"
      ⟨⟨strBytes "a=b", 1, (2, 1)⟩, .never, false, false, false⟩
      ⟨some (.domain "sub.www.example.com"), "/", "http"⟩ "/" rfl rfl).trans
      (by decide)

/-- C2 counterexample: the claim states a cookie stored at `/path/to/`
matches a request for `/path/to/sub/x`.  It does not: splitting the
slash-terminated stored path produces a trailing empty segment, so the
cookie sits at node `path → to → ""`, and the lookup walk for directory
`/path/to/sub/` (segments `path, to, sub, ""`) leaves the trie at `to`
before reaching the cookie — the match set is empty.  The sibling request
`/path/to/page.html` (directory exactly `/path/to/`) does receive the
cookie, and `/path/other` does not. -/
theorem path_scoping_fails_for_subdirectory :
    ((Jar.empty.add_cookie ⟨Host.domain "example.com", "/path/to/",
        ⟨⟨strBytes "a=b", 1, (2, 1)⟩, .never, true, false, false⟩⟩).url_matches
        ⟨some (.domain "example.com"), "/path/to/sub/x", "http"⟩ = some []) ∧
    ((Jar.empty.add_cookie ⟨Host.domain "example.com", "/path/to/",
        ⟨⟨strBytes "a=b", 1, (2, 1)⟩, .never, true, false, false⟩⟩).url_matches
        ⟨some (.domain "example.com"), "/path/to/page.html", "http"⟩ =
      some [⟨strBytes "a=b", 1, (2, 1)⟩]) ∧
    ((Jar.empty.add_cookie ⟨Host.domain "example.com", "/path/to/",
        ⟨⟨strBytes "a=b", 1, (2, 1)⟩, .never, true, false, false⟩⟩).url_matches
        ⟨some (.domain "example.com"), "/path/other", "http"⟩ = some []) := by
  refine ⟨by decide, by decide, by decide⟩

/-- C2 amended: a stored cookie is returned (host permitting; here the
request host equals the stored domain) exactly for request URLs whose
directory-path segment list extends the stored path's segment list — where
a slash-terminated stored path contributes a trailing empty segment, so
such a cookie is only returned when the request directory continues through
that empty segment (for ordinary URLs: when the directory equals the stored
path), not for deeper subdirectories. -/
theorem jar_path_match_requires_segment_extension
    (D P : String) (a : Attributes) (u : Url) (dir : String)
    (hh : u.host = some (Host.domain D)) (hd : url_dir_path u = some dir) :
    (Jar.empty.add_cookie ⟨Host.domain D, P, a⟩).url_matches u =
      some (if pathSegs P <+: pathSegs dir then [a.pair] else []) := by
  simp only [Jar.url_matches, hd, hh, Jar.add_cookie, Jar.empty]
  rw [domainT_single_cookie_match]
  refine congrArg some (if_congr ?_ rfl rfl)
  simp [ List.prefix_refl]

/-- C2 amended witness: with the cookie stored at `/path/to/` under
`example.com`, the request for `/path/to/page.html` (directory
`/path/to/`) receives the cookie. -/
theorem jar_path_match_requires_segment_extension_witness :
    (Jar.empty.add_cookie ⟨Host.domain "example.com", "/path/to/",
        ⟨⟨strBytes "a=b", 1, (2, 1)⟩, .never, true, false, false⟩⟩).url_matches
        ⟨some (.domain "example.com"), "/path/to/page.html", "http"⟩ =
      some [⟨strBytes "a=b", 1, (2, 1)⟩] :=
  (jar_path_match_requires_segment_extension "example.com" "/path/to/"
    ⟨⟨strBytes "a=b", 1, (2, 1)⟩, .never, true, false, false⟩
    ⟨some (.domain "example.com"), "/path/to/page.html", "http"⟩ "/path/to/"
    rfl rfl).trans (by decide)

end CookieJar
